import Mathlib

/-!
Verification of the audio transcoding/framing pipeline, session event handling,
tool-call dispatch and calendar time computation of the avr-sts-gemini relay
server (WebSocket bridge between an 8kHz telephony client and a 24kHz/16kHz
speech-to-speech AI endpoint).

Sources embedded here:
- index.js — `processGeminiAudioChunk`, the `onmessage` event branches
  (model turn audio parts, tool calls, interruption), and
  `initializeGeminiConnection`;
- loadTools.js — `getToolHandler`;
- utils/google_calendar_helper.js — the local-to-UTC timestamp computation
  shared verbatim by `checkAvailability` and `bookAppointment`.

The sample-rate converter itself comes from the external library
`@alexanderolsen/libsamplerate-js` (not part of this repository); it is
modelled from the spec as a stateful streaming converter that carries
inter-call history and drops no samples across call boundaries.
-/

/-- Modelled from the spec: the downsampling direction of the external
resampler library (`create(1, 24000, 8000)` in index.js, the library source is
not in this repository). The spec describes a stateful linear-PCM converter
that "carries inter-call filter history", "preserving sample order and not
dropping samples across call boundaries"; 24000 → 8000 is an exact 1:3
decimation, so the model emits one output sample per three consecutive input
samples and retains the trailing (< 3) unconsumed samples as inter-call
history.  `decim3` is the emitted output of one conversion pass. -/
def decim3 : List Int → List Int
  | a :: _ :: _ :: rest => a :: decim3 rest
  | _ => []

/-- Modelled from the spec: the unconsumed trailing samples (fewer than three)
that the stateful converter retains as history for the next call. -/
def rem3 : List Int → List Int
  | _ :: _ :: _ :: rest => rem3 rest
  | l => l

/-- Modelled from the spec: the conversion state of one resampler instance.
`leftover` is the inter-call filter history (samples received but not yet
consumed by the 1:3 decimation). -/
structure Resampler where
  leftover : List Int
deriving DecidableEq, Repr

/-- Modelled from the spec: one call of the streaming conversion API
(`globalDownsampler.full(inputSamples)` in index.js). The pending history is
prepended to the new input, whole groups of three are converted, and the
remainder becomes the new history. -/
def Resampler.full (r : Resampler) (input : List Int) : List Int × Resampler :=
  (decim3 (r.leftover ++ input), ⟨rem3 (r.leftover ++ input)⟩)

/-- Frame extraction loop of `processGeminiAudioChunk` (index.js lines
199-209): while the accumulator holds at least 160 samples, slice off the
first 160 samples as one frame. Structural recursion on a fuel bound so that
concrete instances reduce; `extractFrames` below supplies sufficient fuel. -/
def extractFramesAux : Nat → List Int → List (List Int) × List Int
  | 0, l => ([], l)
  | fuel + 1, l =>
    if 160 ≤ l.length then
      let rest := extractFramesAux fuel (l.drop 160)
      (l.take 160 :: rest.1, rest.2)
    else ([], l)

/-- The `while (audioBuffer8k.length >= 160)` loop of
`processGeminiAudioChunk`: returns the extracted frames (in FIFO order) and
the remaining accumulator content. Each loop iteration removes 160 > 0
samples, so `l.length` iterations are always enough fuel. -/
def extractFrames (l : List Int) : List (List Int) × List Int :=
  extractFramesAux l.length l

/-- Decoding of a byte buffer as PCM16 little-endian signed samples: the
`new Int16Array(inputBuffer.buffer, inputBuffer.byteOffset,
inputBuffer.length / 2)` view in index.js. A trailing odd byte is ignored,
as the floor division by 2 does in the source. -/
def decodePcm16le : List Nat → List Int
  | lo :: hi :: rest =>
    (let u := lo % 256 + 256 * (hi % 256)
     if u < 32768 then (u : Int) else (u : Int) - 65536) :: decodePcm16le rest
  | _ => []

/-- Encoding of samples back to a PCM16LE byte buffer:
`Buffer.from(Int16Array.from(frame).buffer)` in index.js (two bytes per
sample, low byte first). -/
def pcm16le (samples : List Int) : List Nat :=
  samples.flatMap fun s =>
    [((s % 65536).toNat) % 256, ((s % 65536).toNat) / 256]

/-- Core of `processGeminiAudioChunk` (index.js lines 185-210) on decoded
samples: one conversion pass through the shared downsampler, append the
converted samples to the session accumulator `audioBuffer8k`, then run the
frame extraction loop. Returns (emitted frames, new downsampler state, new
accumulator). -/
def downsampleAndFrame (rs : Resampler) (acc : List Int) (samples : List Int) :
    List (List Int) × Resampler × List Int :=
  let conv := rs.full samples
  let ext := extractFrames (acc ++ conv.1)
  (ext.1, conv.2, ext.2)

/-- `processGeminiAudioChunk(inputBuffer)` of index.js: view the raw byte
buffer as Int16 samples, then downsample and frame. -/
def processGeminiAudioChunk (rs : Resampler) (acc : List Int)
    (inputBytes : List Nat) : List (List Int) × Resampler × List Int :=
  downsampleAndFrame rs acc (decodePcm16le inputBytes)

/-- Messages the server sends over the client WebSocket (index.js):
`{type: "audio"}` with one base64 frame, `{type: "interruption"}`, and
`{type: "error"}`. Audio payloads are modelled as the frame bytes. -/
inductive ClientMsg where
  | audio (frameBytes : List Nat)
  | interruption
  | error (msg : String)
deriving DecidableEq, Repr

/-- Upstream session events relevant to the outbound audio path, as consumed
by the `onmessage` callback of index.js: a model-turn part carrying inline
audio data (decoded from base64 to bytes), and the
`serverContent.interrupted` signal. -/
inductive GeminiAudioEvent where
  | audioPart (dataBytes : List Nat)
  | interrupted
deriving DecidableEq, Repr

/-- Per-connection outbound audio state of `handleClientConnection`
(index.js): the shared downsampler state and the closure variable
`audioBuffer8k` (the sample accumulator). The `audioFrames` variable is not
state across events: it is reassigned on every audio part and its frames are
sent synchronously before the handler returns. -/
structure SessionAudioState where
  downsampler : Resampler
  audioBuffer8k : List Int
deriving DecidableEq, Repr

/-- The audio-relevant branches of the `onmessage` callback (index.js lines
299-376): an inline audio part is pushed through `processGeminiAudioChunk`
and every resulting frame is sent to the client as an `audio` message; on
`serverContent.interrupted` the code only executes `audioFrames = []` (which
touches neither the downsampler state nor `audioBuffer8k`) and sends an
`interruption` message. Returns (new state, messages sent to the client). -/
def handleServerContent (st : SessionAudioState) :
    GeminiAudioEvent → SessionAudioState × List ClientMsg
  | .audioPart dataBytes =>
    let r := processGeminiAudioChunk st.downsampler st.audioBuffer8k dataBytes
    (⟨r.2.1, r.2.2⟩, r.1.map fun f => ClientMsg.audio (pcm16le f))
  | .interrupted =>
    (st, [ClientMsg.interruption])

/-- A function call issued by the upstream session
(`message.toolCall.functionCalls` entries in index.js). -/
structure FunctionCall where
  id : String
  name : String
deriving DecidableEq, Repr

/-- One entry of the `functionResponses` batch built by the tool-call branch
of `onmessage` (index.js lines 344-369): `{id, name, response: {result}}`. -/
structure FunctionResponse where
  id : String
  name : String
  result : String
deriving DecidableEq, Repr

/-- Tool files present in the repository (avr_tools/ and tools/ directories):
`getToolHandler` of loadTools.js looks for `${name}.js` in these directories. -/
def toolFiles : List String :=
  ["avr_hangup", "book_appointment", "get_transcript", "check_availability"]

/-- `getToolHandler(name)` of loadTools.js: finds the first tool file named
`${name}.js`; when no such file exists it THROWS
`Tool "name" not found in any available directory` — it never returns a null
handler. The returned handler wrapper is modelled by the caller's `exec`
argument below. -/
def getToolHandler (name : String) : Except String Unit :=
  if toolFiles.contains name then Except.ok ()
  else Except.error ("Tool \"" ++ name ++ "\" not found in any available directory")

/-- Tool-call branch of `onmessage` (index.js lines 344-369). For each call
the code runs `const handler = getToolHandler(fc.name)` — which throws for an
unknown name, so the `if (!handler)` apology branch
(`I'm sorry, I cannot retrieve the requested information.`) is unreachable —
and then `await handler(...)` with no try/catch, so a handler exception also
escapes. Any throw rejects the whole async callback: `sendToolResponse` is
never reached and no response (not even for already-processed calls) is sent.
`exec fc` is the outcome of awaiting the resolved handler on `fc`:
`Except.ok text` for a normal return, `Except.error e` for a throw. -/
def processToolCalls (exec : FunctionCall → Except String String) :
    List FunctionCall → Except String (List FunctionResponse)
  | [] => Except.ok []
  | fc :: rest =>
    match getToolHandler fc.name with
    | Except.error e => Except.error e
    | Except.ok _ =>
      match exec fc with
      | Except.error e => Except.error e
      | Except.ok r =>
        match processToolCalls exec rest with
        | Except.error e => Except.error e
        | Except.ok rs => Except.ok (⟨fc.id, fc.name, r⟩ :: rs)

/-- Outcome of `initializeGeminiConnection` (index.js lines 270-410) as
observable at the client connection: the messages sent to the client by this
function, whether the `session` variable was assigned (the session became
live/active), and whether this code path closed the client WebSocket. -/
structure InitOutcome where
  clientMsgs : List ClientMsg
  sessionActive : Bool
  clientClosed : Bool
deriving DecidableEq, Repr

/-- `initializeGeminiConnection` of index.js, parameterised by whether
`connectToGeminiSdk` succeeds. On success the session is assigned and a text
nudge is sent upstream (no client message). On failure the catch block
(lines 401-409) sends exactly one `{type: "error", message: "Failed to
initialize Gemini connection"}` to the client; it does not call
`clientWs.close()`, and `session` stays null. -/
def initializeGeminiConnection : Bool → InitOutcome
  | true => ⟨[], true, false⟩
  | false => ⟨[ClientMsg.error "Failed to initialize Gemini connection"], false, false⟩

/-- Session identifiers for reasoning about two concurrent connections that
share the process-wide `globalDownsampler` of index.js. -/
inductive Sid where
  | A
  | B
deriving DecidableEq, Repr

/-- Interleaved execution against the shared global downsampler: each entry
of the schedule is one `processGeminiAudioChunk` conversion call
(`globalDownsampler.full`) made by the given session; the single conversion
state threads through all calls in schedule order, exactly as the
process-wide singleton of index.js does. Returns the tagged per-call
conversion outputs in order, and the final shared state. -/
def runShared (rs : Resampler) :
    List (Sid × List Int) → List (Sid × List Int) × Resampler
  | [] => ([], rs)
  | (sid, chunk) :: rest =>
    let conv := rs.full chunk
    let r := runShared conv.2 rest
    ((sid, conv.1) :: r.1, r.2)

/-- The conversion outputs one session observes under an interleaved
schedule on the shared downsampler (fresh state at server start). -/
def sessionOutputs (sid : Sid) (sched : List (Sid × List Int)) : List (List Int) :=
  ((runShared ⟨[]⟩ sched).1.filter fun p => p.1 == sid).map fun p => p.2

/-- The conversion outputs a session would observe running alone: the same
chunk sequence fed through a converter no other session touches. -/
def sessionAlone (chunks : List (List Int)) : List (List Int) :=
  (runShared ⟨[]⟩ (chunks.map fun c => (Sid.A, c))).1.map fun p => p.2

/-- Sequential feeding of N sample chunks through one session's
Downsample+Frame pipeline (successive audio parts handled by
`processGeminiAudioChunk` with the accumulator carried across calls).
Returns (all frames emitted in order, final downsampler state, final
accumulator). -/
def processChunks (rs : Resampler) (acc : List Int) :
    List (List Int) → List (List Int) × Resampler × List Int
  | [] => ([], rs, acc)
  | c :: cs =>
    let s := downsampleAndFrame rs acc c
    let r := processChunks s.2.1 s.2.2 cs
    (s.1 ++ r.1, r.2)

/-- JavaScript `s.padStart(2, "0")`: pad on the left with zeros up to
length 2 (a no-op on strings already two characters or longer). -/
def padStart2 (s : String) : String :=
  if 2 ≤ s.length then s else String.mk (List.replicate (2 - s.length) '0') ++ s

/-- `const utcHour = hour - 1` of utils/google_calendar_helper.js (lines 109
and 173): the hard-coded local-to-UTC offset applied to the parsed HH field,
identical for every date. -/
def utcHourVal (hour : Nat) : Int :=
  (hour : Int) - 1

/-- `const endHour = hour + Math.floor(endMinute / 60)` where
`endMinute = minute + duration_minutes` (lines 111-112 and 175-176). -/
def endHourVal (hour minute duration : Nat) : Nat :=
  hour + (minute + duration) / 60

/-- `const endMin = endMinute % 60` (lines 113 and 177). -/
def endMinVal (minute duration : Nat) : Nat :=
  (minute + duration) % 60

/-- `const utcEndHour = endHour - 1` (lines 114 and 178). -/
def utcEndHourVal (hour minute duration : Nat) : Int :=
  (endHourVal hour minute duration : Int) - 1

/-- The hour field as printed into the template literal:
`${utcHour.toString().padStart(2, "0")}`. For a negative hour this yields a
string such as "-1" (already two characters, so padStart changes nothing). -/
def hourField (h : Int) : String :=
  padStart2 (toString h)

/-- A well-formed ISO-8601 hour field: exactly two decimal digits (checked
on the underlying character list). -/
def isTwoDigitField (s : String) : Bool :=
  s.data.length == 2 && s.data.all Char.isDigit

/-- The timestamp template literal shared by `checkAvailability` (line 110/115)
and `bookAppointment` (line 174/179):
`${year}-${month..padStart}-${day..padStart}T${hour..padStart}:${minute..padStart}:00Z`. -/
def mkUtcTimestamp (year month day : Nat) (h : Int) (minute : Nat) : String :=
  toString year ++ "-" ++ padStart2 (toString month) ++ "-" ++
    padStart2 (toString day) ++ "T" ++ hourField h ++ ":" ++
    padStart2 (toString minute) ++ ":00Z"

/-- `startUtc` as computed by `checkAvailability` (lines 105-110). -/
def checkAvailabilityStartUtc (year month day hour minute : Nat) : String :=
  mkUtcTimestamp year month day (utcHourVal hour) minute

/-- `endUtc` as computed by `checkAvailability` (lines 111-115). -/
def checkAvailabilityEndUtc (year month day hour minute duration : Nat) : String :=
  mkUtcTimestamp year month day (utcEndHourVal hour minute duration)
    (endMinVal minute duration)

/-- `startUtc` as computed by `bookAppointment` (lines 169-174); the source
lines are a verbatim copy of the ones in `checkAvailability`. -/
def bookAppointmentStartUtc (year month day hour minute : Nat) : String :=
  mkUtcTimestamp year month day (utcHourVal hour) minute

/-- `endUtc` as computed by `bookAppointment` (lines 175-179), verbatim copy
of the computation in `checkAvailability`. -/
def bookAppointmentEndUtc (year month day hour minute duration : Nat) : String :=
  mkUtcTimestamp year month day (utcEndHourVal hour minute duration)
    (endMinVal minute duration)

/-! ## Lemmas about the streaming decimation -/

/-- Streaming split law for the decimated output: converting `l ++ m` in one
call emits the same samples as converting `l` first and then `m` with the
history `rem3 l` carried over. -/
theorem decim3_append : ∀ l m : List Int,
    decim3 (l ++ m) = decim3 l ++ decim3 (rem3 l ++ m)
  | a :: b :: c :: rest, m => by
    simp [decim3, rem3, decim3_append rest m]
  | [], m => by simp [decim3, rem3]
  | [a], m => by simp [decim3, rem3]
  | [a, b], m => by simp [decim3, rem3]

/-- Streaming split law for the retained history. -/
theorem rem3_append : ∀ l m : List Int,
    rem3 (l ++ m) = rem3 (rem3 l ++ m)
  | a :: b :: c :: rest, m => by
    simp [rem3, rem3_append rest m]
  | [], m => by simp [rem3]
  | [a], m => by simp [rem3]
  | [a, b], m => by simp [rem3]

/-- The retained history always holds fewer than three samples. -/
theorem rem3_length_lt : ∀ l : List Int, (rem3 l).length < 3
  | _ :: _ :: _ :: rest => rem3_length_lt rest
  | [] => by simp [rem3]
  | [a] => by simp [rem3]
  | [a, b] => by simp [rem3]

/-- A list shorter than three samples emits nothing. -/
theorem decim3_eq_nil_of_lt : ∀ l : List Int, l.length < 3 → decim3 l = []
  | [], _ => by simp [decim3]
  | [a], _ => by simp [decim3]
  | [a, b], _ => by simp [decim3]
  | a :: b :: c :: rest, h => by simp at h; omega

/-- A list shorter than three samples is retained whole. -/
theorem rem3_eq_self_of_lt : ∀ l : List Int, l.length < 3 → rem3 l = l
  | [], _ => by simp [rem3]
  | [a], _ => by simp [rem3]
  | [a, b], _ => by simp [rem3]
  | a :: b :: c :: rest, h => by simp at h; omega

/-! ## Lemmas about the frame extraction loop -/

/-- Conservation: the extracted frames followed by the remaining accumulator
reproduce the input accumulator exactly (no fuel condition needed — running
out of fuel only leaves more in the remainder). -/
theorem extractFramesAux_flatten : ∀ (fuel : Nat) (l : List Int),
    (extractFramesAux fuel l).1.flatten ++ (extractFramesAux fuel l).2 = l
  | 0, l => by simp [extractFramesAux]
  | fuel + 1, l => by
    by_cases h : 160 ≤ l.length
    · simp only [extractFramesAux, if_pos h, List.flatten_cons, List.append_assoc]
      rw [extractFramesAux_flatten fuel (l.drop 160), List.take_append_drop]
    · simp [extractFramesAux, h]

/-- Every extracted frame holds exactly 160 samples. -/
theorem extractFramesAux_sizes : ∀ (fuel : Nat) (l : List Int),
    ∀ f ∈ (extractFramesAux fuel l).1, f.length = 160
  | 0, l => by simp [extractFramesAux]
  | fuel + 1, l => by
    by_cases h : 160 ≤ l.length
    · simp only [extractFramesAux, if_pos h, List.mem_cons]
      intro f hf
      rcases hf with hf | hf
      · subst hf; simp [List.length_take]; omega
      · exact extractFramesAux_sizes fuel (l.drop 160) f hf
    · simp [extractFramesAux, h]

/-- With enough fuel the loop runs to completion: the remainder is a partial
frame (fewer than 160 samples). -/
theorem extractFramesAux_rem_lt : ∀ (fuel : Nat) (l : List Int),
    l.length < 160 * fuel + 160 → (extractFramesAux fuel l).2.length < 160
  | 0, l, h => by simpa [extractFramesAux] using h
  | fuel + 1, l, h => by
    by_cases hc : 160 ≤ l.length
    · simp only [extractFramesAux, if_pos hc]
      exact extractFramesAux_rem_lt fuel (l.drop 160) (by simp [List.length_drop]; omega)
    · simp only [extractFramesAux, if_neg hc]
      omega

/-- Conservation for `extractFrames`. -/
theorem extractFrames_flatten (l : List Int) :
    (extractFrames l).1.flatten ++ (extractFrames l).2 = l :=
  extractFramesAux_flatten l.length l

/-- Every frame produced by `extractFrames` holds exactly 160 samples. -/
theorem extractFrames_sizes (l : List Int) :
    ∀ f ∈ (extractFrames l).1, f.length = 160 :=
  extractFramesAux_sizes l.length l

/-- The accumulator left behind by `extractFrames` is always a partial frame. -/
theorem extractFrames_rem_lt (l : List Int) : (extractFrames l).2.length < 160 :=
  extractFramesAux_rem_lt l.length l (by omega)

/-- Uniqueness of the frame decomposition: a list splits in exactly one way
into a sequence of 160-sample frames followed by a remainder shorter than a
frame. -/
theorem framesDecompUnique : ∀ (fs1 fs2 : List (List Int)) (r1 r2 : List Int),
    (∀ f ∈ fs1, f.length = 160) → (∀ f ∈ fs2, f.length = 160) →
    r1.length < 160 → r2.length < 160 →
    fs1.flatten ++ r1 = fs2.flatten ++ r2 → fs1 = fs2 ∧ r1 = r2
  | [], [], r1, r2, _, _, _, _, h => ⟨rfl, by simpa using h⟩
  | [], g :: gs, r1, r2, _, h2, hr1, _, h => by
    exfalso
    have hlen := congrArg List.length h
    have hg : g.length = 160 := h2 g (by simp)
    simp [List.length_append] at hlen
    omega
  | f :: fs, [], r1, r2, h1, _, _, hr2, h => by
    exfalso
    have hlen := congrArg List.length h
    have hf : f.length = 160 := h1 f (by simp)
    simp [List.length_append] at hlen
    omega
  | f :: fs, g :: gs, r1, r2, h1, h2, hr1, hr2, h => by
    have hf : f.length = 160 := h1 f (by simp)
    have hg : g.length = 160 := h2 g (by simp)
    have hsplit : f ++ (fs.flatten ++ r1) = g ++ (gs.flatten ++ r2) := by
      simpa [List.append_assoc] using h
    obtain ⟨hfg, hrest⟩ := List.append_inj hsplit (by omega)
    obtain ⟨hfs, hr⟩ := framesDecompUnique fs gs r1 r2
      (fun x hx => h1 x (by simp [hx])) (fun x hx => h2 x (by simp [hx]))
      hr1 hr2 hrest
    exact ⟨by rw [hfg, hfs], hr⟩

/-- Streaming split law for the frame extraction loop: extracting from
`l ++ m` yields the frames of `l` followed by the frames obtained from the
remainder of `l` prefixed to `m`, and the corresponding final remainder. -/
theorem extractFrames_append (l m : List Int) :
    extractFrames (l ++ m) =
      ((extractFrames l).1 ++ (extractFrames ((extractFrames l).2 ++ m)).1,
       (extractFrames ((extractFrames l).2 ++ m)).2) := by
  have hmem : ∀ f ∈ (extractFrames l).1 ++ (extractFrames ((extractFrames l).2 ++ m)).1,
      f.length = 160 := by
    intro f hf
    rcases List.mem_append.1 hf with hf | hf
    · exact extractFrames_sizes l f hf
    · exact extractFrames_sizes _ f hf
  have hflat : (extractFrames (l ++ m)).1.flatten ++ (extractFrames (l ++ m)).2 =
      ((extractFrames l).1 ++ (extractFrames ((extractFrames l).2 ++ m)).1).flatten ++
        (extractFrames ((extractFrames l).2 ++ m)).2 := by
    rw [extractFrames_flatten]
    rw [List.flatten_append, List.append_assoc, extractFrames_flatten,
      ← List.append_assoc, extractFrames_flatten]
  obtain ⟨h1, h2⟩ := framesDecompUnique (extractFrames (l ++ m)).1
    ((extractFrames l).1 ++ (extractFrames ((extractFrames l).2 ++ m)).1)
    (extractFrames (l ++ m)).2 (extractFrames ((extractFrames l).2 ++ m)).2
    (extractFrames_sizes _) hmem (extractFrames_rem_lt _) (extractFrames_rem_lt _)
    hflat
  exact Prod.ext h1 h2

/-- Byte length of the PCM16LE encoding: two bytes per sample. -/
theorem pcm16le_length (samples : List Int) :
    (pcm16le samples).length = 2 * samples.length := by
  induction samples with
  | nil => simp [pcm16le]
  | cons s rest ih =>
    simp only [pcm16le, List.flatMap_cons, List.length_append, List.length_cons,
      List.length_nil] at ih ⊢
    omega

/-! ## Pipeline theorems -/

/-- C4: for every PCM16 input (as its sample sequence) and every split point
`k`, feeding the two sub-chunks through the Downsample+Frame pipeline
sequentially yields exactly the frames of the unsplit input, in order, and
leaves the identical converter history and accumulator — no samples are
dropped at the call boundary. -/
theorem c4_split_invariance (rs : Resampler) (acc input : List Int) (k : Nat) :
    let first := downsampleAndFrame rs acc (input.take k)
    let second := downsampleAndFrame first.2.1 first.2.2 (input.drop k)
    let whole := downsampleAndFrame rs acc input
    first.1 ++ second.1 = whole.1 ∧ second.2.1 = whole.2.1 ∧ second.2.2 = whole.2.2 := by
  intro first second whole
  have hin : rs.leftover ++ input = (rs.leftover ++ input.take k) ++ input.drop k := by
    rw [List.append_assoc, List.take_append_drop]
  show first.1 ++ second.1 = whole.1 ∧ second.2.1 = whole.2.1 ∧ second.2.2 = whole.2.2
  simp only [first, second, whole, downsampleAndFrame, Resampler.full]
  rw [hin, decim3_append (rs.leftover ++ input.take k) (input.drop k),
    rem3_append (rs.leftover ++ input.take k) (input.drop k),
    ← List.append_assoc acc,
    extractFrames_append (acc ++ decim3 (rs.leftover ++ input.take k))
      (decim3 (rem3 (rs.leftover ++ input.take k) ++ input.drop k))]
  exact ⟨rfl, rfl, rfl⟩

/-- Generalized conservation invariant for sequential chunk processing: for
any starting state whose converter history is a genuine inter-call remainder
(fewer than three samples), the emitted frames followed by the final
accumulator equal the prior accumulator content followed by the in-order
downsampled concatenated input, and the final history is the streaming
remainder of the whole input. -/
theorem processChunks_conservation :
    ∀ (chunks : List (List Int)) (rs : Resampler) (acc : List Int),
    rs.leftover.length < 3 →
    (processChunks rs acc chunks).1.flatten ++ (processChunks rs acc chunks).2.2 =
      acc ++ decim3 (rs.leftover ++ chunks.flatten)
    ∧ (processChunks rs acc chunks).2.1.leftover = rem3 (rs.leftover ++ chunks.flatten)
  | [], rs, acc, h => by
    simp [processChunks, decim3_eq_nil_of_lt _ h, rem3_eq_self_of_lt _ h]
  | c :: cs, rs, acc, h => by
    obtain ⟨ih1, ih2⟩ := processChunks_conservation cs ⟨rem3 (rs.leftover ++ c)⟩
      (extractFrames (acc ++ decim3 (rs.leftover ++ c))).2 (rem3_length_lt _)
    simp only [processChunks, downsampleAndFrame, Resampler.full, List.flatten_cons]
    constructor
    · rw [List.flatten_append, List.append_assoc, ih1,
        ← List.append_assoc ((extractFrames (acc ++ decim3 (rs.leftover ++ c))).1.flatten),
        extractFrames_flatten, List.append_assoc acc, ← decim3_append,
        List.append_assoc rs.leftover]
    · rw [ih2, ← rem3_append, List.append_assoc]

/-- C9: feeding any sequence of chunks to the Downsample+Frame pipeline from
server start (fresh converter, empty accumulator), the concatenation of all
emitted frames followed by the final accumulator content equals the in-order
downsampled concatenated input stream — frames are sliced off the front of
the accumulator FIFO, so emitted samples appear in exactly the order the
input samples arrived, with the converter history likewise the streaming
remainder of the concatenated input. -/
theorem c9_frame_order (chunks : List (List Int)) :
    (processChunks ⟨[]⟩ [] chunks).1.flatten ++ (processChunks ⟨[]⟩ [] chunks).2.2 =
      decim3 chunks.flatten
    ∧ (processChunks ⟨[]⟩ [] chunks).2.1.leftover = rem3 chunks.flatten := by
  have h := processChunks_conservation chunks ⟨[]⟩ [] (by simp)
  simpa using h

/-- C7: every frame emitted by `processGeminiAudioChunk` for any input byte
buffer, from any accumulator state, encodes to exactly 320 bytes (160
samples of 2 bytes), and the accumulator afterwards holds a partial frame
(fewer than 160 samples) that is kept, never emitted. -/
theorem c7_frame_size (rs : Resampler) (acc : List Int) (bytes : List Nat) :
    (∀ f ∈ (processGeminiAudioChunk rs acc bytes).1, (pcm16le f).length = 320)
    ∧ (processGeminiAudioChunk rs acc bytes).2.2.length < 160 := by
  constructor
  · intro f hf
    simp only [processGeminiAudioChunk, downsampleAndFrame, Resampler.full] at hf
    have h160 := extractFrames_sizes _ f hf
    rw [pcm16le_length, h160]
  · simp only [processGeminiAudioChunk, downsampleAndFrame, Resampler.full]
    exact extractFrames_rem_lt _

set_option maxRecDepth 100000 in
/-- Witness for `c7_frame_size` at a concrete input: an accumulator of 159
samples plus one converted sample produces the single frame
`replicate 159 2 ++ [4]`, whose encoding is 320 bytes. -/
theorem c7_frame_size_witness :
    (pcm16le (List.replicate 159 (2 : Int) ++ [(4 : Int)])).length = 320
    ∧ (processGeminiAudioChunk ⟨[]⟩ (List.replicate 159 2) (pcm16le [4, 0, 0])).2.2.length < 160 :=
  ⟨(c7_frame_size ⟨[]⟩ (List.replicate 159 2) (pcm16le [4, 0, 0])).1
      (List.replicate 159 (2 : Int) ++ [(4 : Int)]) (by decide),
   (c7_frame_size ⟨[]⟩ (List.replicate 159 2) (pcm16le [4, 0, 0])).2⟩

set_option maxRecDepth 100000 in
/-- C8: the end-to-end scenario — one upstream audio part of 1200 bytes (600
zero samples at 24kHz) processed from a fresh state downsamples to 200
samples at 8kHz, emits exactly one 160-sample frame encoding to 320 bytes,
and retains exactly the remaining 40 samples in the accumulator. -/
theorem c8_scenario :
    decodePcm16le (List.replicate 1200 0) = List.replicate 600 0
    ∧ (decim3 (List.replicate 600 0)).length = 200
    ∧ (processGeminiAudioChunk ⟨[]⟩ [] (List.replicate 1200 0)).1 = [List.replicate 160 0]
    ∧ (pcm16le (List.replicate 160 0)).length = 320
    ∧ (processGeminiAudioChunk ⟨[]⟩ [] (List.replicate 1200 0)).2.2 = List.replicate 40 0
    ∧ (processGeminiAudioChunk ⟨[]⟩ [] (List.replicate 1200 0)).2.1 = ⟨[]⟩ := by
  decide

/-! ## Interruption handling (C1) -/

set_option maxRecDepth 400000 in
/-- C1 evaluated at a failing input: with 40 stale samples sitting in
`audioBuffer8k` (derived from audio received before the signal), the
interruption branch forwards the `interruption` event but leaves the
accumulator untouched; the next audio part (360 fresh samples, downsampled
to 120) then fills the accumulator to 160 and the emitted frame begins with
the 40 stale pre-interruption samples — stale audio is delivered after the
interruption, contradicting the claim that the accumulator is cleared. -/
theorem c1_stale_audio_after_interruption :
    (handleServerContent ⟨⟨[]⟩, List.replicate 40 7⟩ GeminiAudioEvent.interrupted).2 =
      [ClientMsg.interruption]
    ∧ (handleServerContent ⟨⟨[]⟩, List.replicate 40 7⟩ GeminiAudioEvent.interrupted).1 =
      ⟨⟨[]⟩, List.replicate 40 7⟩
    ∧ (handleServerContent
        (handleServerContent ⟨⟨[]⟩, List.replicate 40 7⟩ GeminiAudioEvent.interrupted).1
        (GeminiAudioEvent.audioPart (pcm16le (List.replicate 360 1)))).2 =
      [ClientMsg.audio (pcm16le (List.replicate 40 7 ++ List.replicate 120 1))] := by
  decide

/-! ## Tool-call handling (C2, C5) -/

/-- C2 evaluated at failing inputs: a batch containing a call whose name
resolves to no tool file does not produce one apology response per call —
`getToolHandler` throws, the exception escapes the `onmessage` callback, and
zero responses are sent, even for calls earlier in the batch that resolved
and executed successfully (K = 1 and K = 2 batches shown). -/
theorem c2_unknown_tool_aborts_batch :
    processToolCalls (fun _ => Except.ok "done") [⟨"call-1", "transfer_call"⟩] =
      Except.error "Tool \"transfer_call\" not found in any available directory"
    ∧ processToolCalls (fun _ => Except.ok "done")
        [⟨"call-1", "get_transcript"⟩, ⟨"call-2", "transfer_call"⟩] =
      Except.error "Tool \"transfer_call\" not found in any available directory" :=
  ⟨rfl, rfl⟩

/-- C5 counterexample: a resolved handler that throws during execution is
not converted into an apology response — the exception propagates unchanged
out of the tool-call processing and no ToolResponse batch is produced. -/
theorem c5_counterexample :
    processToolCalls (fun _ => Except.error "TypeError: boom")
        [⟨"call-9", "get_transcript"⟩] =
      Except.error "TypeError: boom" :=
  rfl

/-- C5 amended: whenever any call of the batch resolves but its handler
throws (all earlier calls resolving and succeeding), the exception
propagates as-is out of the tool-call processing: the whole batch aborts
with that error and no responses are sent, instead of the claimed
conversion to an apology text. -/
theorem c5_handler_exception_propagates
    (exec : FunctionCall → Except String String)
    (pre : List FunctionCall) (fc : FunctionCall) (post : List FunctionCall)
    (e : String)
    (hpre : ∀ c ∈ pre, (getToolHandler c.name).isOk = true ∧ (exec c).isOk = true)
    (hfc : (getToolHandler fc.name).isOk = true)
    (he : exec fc = Except.error e) :
    processToolCalls exec (pre ++ fc :: post) = Except.error e := by
  induction pre with
  | nil =>
    obtain ⟨u, hh⟩ : ∃ u, getToolHandler fc.name = Except.ok u := by
      cases hg : getToolHandler fc.name
      · rw [hg] at hfc; simp [Except.isOk, Except.toBool] at hfc
      · exact ⟨_, rfl⟩
    simp only [List.nil_append, processToolCalls, hh, he]
  | cons c cs ih =>
    obtain ⟨hch, hce⟩ := hpre c (by simp)
    obtain ⟨u, hh⟩ : ∃ u, getToolHandler c.name = Except.ok u := by
      cases hg : getToolHandler c.name
      · rw [hg] at hch; simp [Except.isOk, Except.toBool] at hch
      · exact ⟨_, rfl⟩
    obtain ⟨r, hx⟩ : ∃ r, exec c = Except.ok r := by
      cases hg : exec c
      · rw [hg] at hce; simp [Except.isOk, Except.toBool] at hce
      · exact ⟨_, rfl⟩
    have hrec := ih fun x hmem => hpre x (by simp [hmem])
    simp only [List.cons_append, processToolCalls, hh, hx, List.append_eq, hrec]

/-- Witness for `c5_handler_exception_propagates`: a two-call batch whose
first call resolves and succeeds while the second resolves and throws ends
as the propagated error, with zero responses. -/
theorem c5_handler_exception_witness :
    processToolCalls
        (fun c => if c.id == "call-1" then Except.ok "transcript text"
          else Except.error "TypeError: boom")
        [⟨"call-1", "get_transcript"⟩, ⟨"call-2", "avr_hangup"⟩] =
      Except.error "TypeError: boom" :=
  c5_handler_exception_propagates
    (fun c => if c.id == "call-1" then Except.ok "transcript text"
      else Except.error "TypeError: boom")
    [⟨"call-1", "get_transcript"⟩] ⟨"call-2", "avr_hangup"⟩ [] "TypeError: boom"
    (by decide) (by decide) rfl

/-! ## Upstream session open failure (C6) -/

/-- Helper: whether a client message is an `error` message. -/
def isErrorMsg : ClientMsg → Bool
  | ClientMsg.error _ => true
  | _ => false

/-- C6 counterexample: when opening the upstream session fails, the catch
block of `initializeGeminiConnection` sends the single error message but
does not close the client WebSocket — `clientClosed` is false, refuting the
claimed "the client connection is closed". -/
theorem c6_counterexample :
    (initializeGeminiConnection false).clientMsgs =
      [ClientMsg.error "Failed to initialize Gemini connection"]
    ∧ (initializeGeminiConnection false).clientClosed = false := by
  decide

/-- C6 amended: on upstream open failure exactly one message is sent to the
client, that message is an `error` event, and the session never becomes
active — but this path does not close the client connection (it stays open
until the client disconnects or an upstream close arrives). -/
theorem c6_open_failure_single_error :
    ((initializeGeminiConnection false).clientMsgs.filter isErrorMsg).length = 1
    ∧ (initializeGeminiConnection false).clientMsgs.length = 1
    ∧ (initializeGeminiConnection false).sessionActive = false
    ∧ (initializeGeminiConnection false).clientClosed = false := by
  decide

/-! ## Cross-session interference through the shared resampler (C3) -/

/-- Interleaved schedule used to exhibit cross-session interference:
session A converts [1, 1], then session B converts [2], then session A
converts [3, 3, 3, 3], all through the process-wide downsampler. -/
def interleavedSched : List (Sid × List Int) :=
  [(Sid.A, [1, 1]), (Sid.B, [2]), (Sid.A, [3, 3, 3, 3])]

/-- C3 counterexample: under the interleaved schedule, session A's converted
outputs differ from the outputs it would receive running alone — the shared
resampler's result for a session's chunk depends on prior input from the
other session. -/
theorem c3_counterexample :
    sessionOutputs Sid.A interleavedSched ≠ sessionAlone [[1, 1], [3, 3, 3, 3]] := by
  decide

/-- C3 amended: conversion through the process-wide resampler is not
stateless across sessions. Under the interleaving A:[1,1], B:[2],
A:[3,3,3,3], session A receives [[], [3]] instead of its run-alone
[[], [1, 3]], and session B receives [[1]] — a sample that session A sent —
instead of its run-alone [[]]. -/
theorem c3_shared_state_interference :
    sessionOutputs Sid.A interleavedSched = [[], [3]]
    ∧ sessionAlone [[1, 1], [3, 3, 3, 3]] = [[], [1, 3]]
    ∧ sessionOutputs Sid.B interleavedSched = [[1]]
    ∧ sessionAlone [[2]] = [[]] := by
  decide

/-! ## Calendar local-to-UTC computation (C10) -/

/-- C10: both `checkAvailability` and `bookAppointment` derive the UTC start
hour as HH − 1 via a fixed offset and the UTC end hour as the carried local
end hour minus 1, for every date; for HH = 0 the printed hour field is the
string "-1" — not a two-digit field, so the start timestamp is not a
well-formed ISO-8601 time — and whenever the computed UTC end time crosses
midnight (total minutes 60·HH + MM + duration ≥ 1500, i.e. UTC end ≥ 24:00)
the printed end hour value is 24 or more. -/
theorem c10_fixed_offset_time_bugs (y mo d h mi dur : Nat) :
    utcHourVal h = (h : Int) - 1
    ∧ utcEndHourVal h mi dur = ((h + (mi + dur) / 60 : Nat) : Int) - 1
    ∧ (h = 0 →
        hourField (utcHourVal h) = "-1"
        ∧ isTwoDigitField (hourField (utcHourVal h)) = false
        ∧ checkAvailabilityStartUtc y mo d h mi = mkUtcTimestamp y mo d (-1) mi
        ∧ bookAppointmentStartUtc y mo d h mi = mkUtcTimestamp y mo d (-1) mi)
    ∧ (1500 ≤ 60 * h + mi + dur → 24 ≤ utcEndHourVal h mi dur) := by
  refine ⟨rfl, rfl, ?_, ?_⟩
  · intro h0
    subst h0
    have hv : utcHourVal 0 = -1 := by decide
    refine ⟨by decide, by decide, ?_, ?_⟩
    · show mkUtcTimestamp y mo d (utcHourVal 0) mi = mkUtcTimestamp y mo d (-1) mi
      rw [hv]
    · show mkUtcTimestamp y mo d (utcHourVal 0) mi = mkUtcTimestamp y mo d (-1) mi
      rw [hv]
  · intro hmid
    show (24 : Int) ≤ (endHourVal h mi dur : Int) - 1
    have : 25 ≤ endHourVal h mi dur := by
      unfold endHourVal
      omega
    omega

/-- Witness for `c10_fixed_offset_time_bugs` at HH = 0 (date 2025-12-24,
minute 30) and at a midnight-crossing booking (duration 1500 minutes): the
printed start hour field is the malformed "-1" and the end hour value
reaches 24. -/
theorem c10_witness :
    hourField (utcHourVal 0) = "-1"
    ∧ isTwoDigitField (hourField (utcHourVal 0)) = false
    ∧ checkAvailabilityStartUtc 2025 12 24 0 30 = mkUtcTimestamp 2025 12 24 (-1) 30
    ∧ bookAppointmentStartUtc 2025 12 24 0 30 = mkUtcTimestamp 2025 12 24 (-1) 30
    ∧ 24 ≤ utcEndHourVal 0 30 1500 :=
  ⟨((c10_fixed_offset_time_bugs 2025 12 24 0 30 1500).2.2.1 rfl).1,
   ((c10_fixed_offset_time_bugs 2025 12 24 0 30 1500).2.2.1 rfl).2.1,
   ((c10_fixed_offset_time_bugs 2025 12 24 0 30 1500).2.2.1 rfl).2.2.1,
   ((c10_fixed_offset_time_bugs 2025 12 24 0 30 1500).2.2.1 rfl).2.2.2,
   (c10_fixed_offset_time_bugs 2025 12 24 0 30 1500).2.2.2 (by decide)⟩
